import Mathlib

/-!
Shallow embedding of the bounty-orchestrator workflow core
(`bounty_agent/` in the repository): the workflow state, the phase nodes,
the routing predicates, the Executor Client wrapper, the knowledge
synchronizer and the learning recorder.  Each definition mirrors one
Python function; theorems settle the specification claims about them.
-/

namespace BountyOrch

/-- Workflow phase, mirroring the string field `phase` with values
"A".."F" in `state.py` (`BountyState`). -/
inductive Phase where
  | A | B | C | D | E | F
deriving DecidableEq, Repr

/-- Position of a phase in the fixed order A<B<C<D<E<F. -/
def phaseIdx : Phase → Nat
  | .A => 0
  | .B => 1
  | .C => 2
  | .D => 3
  | .E => 4
  | .F => 5

/-- Opaque structured payload produced by the external executor and stored
verbatim by a phase node (`issue_details`, `implementation_plan`,
`execution_result` in `state.py`).  Modelled as an association list of
string entries; the empty dict is `[]`. -/
abbrev Payload := List (String × String)

/-- The value held in `competition_analysis`: either a JSON object with the
two fields `should_proceed` reads (plus other, untouched entries), or a
non-dict value (malformed upstream output).  `competing_prs` is modelled as
a count (the upstream contract asks for a number of competing PRs). -/
inductive CompVal where
  | obj (competingPrs : Option Nat) (recommendation : Option String)
      (extra : List (String × String))
  | nonDict (raw : String)
deriving DecidableEq, Repr

/-- Result dict returned by `BobsBrainClient.ask_bob`
(`bobs_brain_client.py`): the optional `response` entry and the optional
`error` entry.  `response = none` models a server reply that lacks the
`response` key. -/
structure BobResult (α : Type) where
  response : Option α
  error : Option String := none
deriving DecidableEq, Repr

/-- Outcome of the underlying HTTP call made by `ask_bob`: either the
parsed result dict from a 2xx reply, or an `httpx.HTTPError` (unreachable,
non-2xx, or timeout) with its message. -/
inductive ExecOutcome (α : Type) where
  | ok (result : BobResult α)
  | fail (e : String)
deriving DecidableEq, Repr

/-- `BobsBrainClient.ask_bob`: on success the parsed reply is returned; on
`httpx.HTTPError` the except-branch returns the dict
`{"error": str(e), "response": {}}` — the empty dict of the payload type
(`empty`) plus an error marker.  No exception propagates. -/
def askBob {α : Type} (empty : α) : ExecOutcome α → BobResult α
  | .ok r => r
  | .fail e => { response := some empty, error := some e }

/-- `result.get("response", {})` as performed by every phase node on the
dict returned by `ask_bob`. -/
def getResp {α : Type} (empty : α) (r : BobResult α) : α :=
  r.response.getD empty

/-- Per-target durable knowledge record (`RepoProfile`), as written by
`sync_repo_knowledge` and read back by the nodes and by `learn.py`.
`extra` stands for the knowledge fields the claims never inspect
(summary bullets, commands, style rules, links, CLA flag). -/
structure RepoProfile where
  gotchas : List String := []
  extra : List (String × String) := []
  url : String := ""
  lastSynced : Option String := none
deriving DecidableEq, Repr

/-- The workflow state record (`BountyState` in `state.py`).
`humanApproved` is an `Option Bool` so that an absent key (Python
`state.get("human_approved")` returning `None`) is representable; the
`outcome` entry is injected only by the reject action and the learning
recorder. -/
structure BState where
  bountyId : String
  issueUrl : String
  repo : String
  repoId : String
  issueDetails : Payload
  competitionAnalysis : Option CompVal
  implementationPlan : Payload
  phase : Phase
  humanApproved : Option Bool
  executionResult : Payload
  sessionId : String
  repoProfile : Option RepoProfile
  outcome : Option String := none
deriving DecidableEq, Repr

/-- `analyze_bounty` (`nodes/analyze.py`): the memory/sync enrichment is
summarised by `profileAfterSync` (the profile re-read after the optional
sync; the sync itself is modelled separately by `syncRepoKnowledge`); the
executor call stores `result.get("response", {})` into `issue_details` and
phase moves to B. -/
def analyzeBounty (profileAfterSync : Option RepoProfile)
    (o : ExecOutcome Payload) (s : BState) : BState :=
  { s with
    issueDetails := getResp [] (askBob [] o)
    repoProfile := profileAfterSync
    phase := .B }

/-- `check_competition` (`nodes/competition.py`): stores
`result.get("response", {})` into `competition_analysis`; the phase field
is left untouched. -/
def checkCompetition (o : ExecOutcome CompVal) (s : BState) : BState :=
  { s with
    competitionAnalysis :=
      some (getResp (.obj none none []) (askBob (.obj none none []) o)) }

/-- `should_proceed` (`nodes/competition.py`): reads
`competition_analysis` with default `{}`; a dict yields
`competing = get("competing_prs", 0)` and
`recommendation = get("recommendation", "proceed")`; a non-dict yields the
same defaults; returns "continue" iff `competing == 0` and
`recommendation != "skip"`. -/
def shouldProceed (s : BState) : String :=
  let analysis := s.competitionAnalysis.getD (.obj none none [])
  let cr : Nat × String :=
    match analysis with
    | .obj cp rec _ => (cp.getD 0, rec.getD "proceed")
    | .nonDict _ => (0, "proceed")
  if cr.1 = 0 ∧ cr.2 ≠ "skip" then "continue" else "skip"

/-- `create_plan` (`nodes/plan.py`): stores `result.get("response", {})`
into `implementation_plan` and sets phase C. -/
def createPlan (o : ExecOutcome Payload) (s : BState) : BState :=
  { s with
    implementationPlan := getResp [] (askBob [] o)
    phase := .C }

/-- `is_approved` (`nodes/plan.py`): "execute" iff
`state.get("human_approved")` is truthy, i.e. present and `True`. -/
def isApproved (s : BState) : String :=
  if s.humanApproved = some true then "execute" else "rejected"

/-- The `approval` node of the graph (`agent.py`): the identity
`lambda s: s`. -/
def approvalNode (s : BState) : BState := s

/-- `execute_via_bob` (`nodes/execute.py`): stores
`result.get("response", {})` into `execution_result` and sets phase E. -/
def executeViaBob (o : ExecOutcome Payload) (s : BState) : BState :=
  { s with
    executionResult := getResp [] (askBob [] o)
    phase := .E }

/-- `approve_execution` (`api.py`): unconditionally updates the checkpoint
with `human_approved = True` and `phase = "D"`; the endpoint performs no
check of the current phase. -/
def approveAction (s : BState) : BState :=
  { s with humanApproved := some true, phase := .D }

/-- `reject_execution` (`api.py`): unconditionally updates the checkpoint
with `human_approved = False`, `phase = "F"` and `outcome = "rejected"`. -/
def rejectAction (s : BState) : BState :=
  { s with humanApproved := some false, phase := .F, outcome := some "rejected" }

/-- One step of the workflow: the five graph nodes, applied as the graph
wiring in `BountyOrchestrator.set_up` allows (entry at phase A; `analyze`
to `check_competition`; `should_proceed` gating `create_plan`;
`is_approved` gating `execute`), plus the two external checkpoint
mutations exposed by the API, which the code applies without any guard on
the current state.  Executor outcomes are universally quantified oracle
inputs. -/
inductive Step : BState → BState → Prop where
  | analyze (s : BState) (prof : Option RepoProfile) (o : ExecOutcome Payload) :
      s.phase = .A → Step s (analyzeBounty prof o s)
  | checkComp (s : BState) (o : ExecOutcome CompVal) :
      s.phase = .B → Step s (checkCompetition o s)
  | plan (s : BState) (o : ExecOutcome Payload) :
      s.phase = .B → shouldProceed s = "continue" → Step s (createPlan o s)
  | approval (s : BState) :
      s.phase = .C → Step s (approvalNode s)
  | execute (s : BState) (o : ExecOutcome Payload) :
      (s.phase = .C ∨ s.phase = .D) → isApproved s = "execute" →
      Step s (executeViaBob o s)
  | approve (s : BState) : Step s (approveAction s)
  | reject (s : BState) : Step s (rejectAction s)

/-- States reachable from a given state through workflow steps. -/
def Reachable : BState → BState → Prop := Relation.ReflTransGen Step

/-- Boolean prefix test on character lists, mirroring how Python scans for
the next occurrence of a pattern during `str.replace`. -/
def hasPfx : List Char → List Char → Bool
  | [], _ => true
  | _ :: _, [] => false
  | a :: as, b :: bs => a == b && hasPfx as bs

/-- Fuelled worker for `replaceAll`; the fuel only serves structural
termination and is invariant once it covers the input length
(`replaceAllAux_congr`). -/
def replaceAllAux (pat rep : List Char) : Nat → List Char → List Char
  | _, [] => []
  | 0, s => s
  | fuel + 1, c :: rest =>
    if hasPfx pat (c :: rest) = true ∧ 0 < pat.length then
      rep ++ replaceAllAux pat rep fuel ((c :: rest).drop pat.length)
    else
      c :: replaceAllAux pat rep fuel rest

/-- Python `s.replace(pat, rep)` on character lists: scan left to right,
replace each non-overlapping occurrence of `pat`, continue after the
replacement.  (The `0 < pat.length` guard inside the worker never fires
for the source's uses, whose patterns are all non-empty.) -/
def replaceAll (pat rep s : List Char) : List Char :=
  replaceAllAux pat rep s.length s

/-- The repo identifier used both by `start_bounty_workflow` (`api.py`) and
by `sync_repo_knowledge` (`knowledge/repo_sync.py`):
`s.replace("/", "_").replace(":", "_").replace("https___", "")`. -/
def deriveKey (s : String) : String :=
  ⟨replaceAll ("https___".data) [] (replaceAll [':'] ['_'] (replaceAll ['/'] ['_'] s.data))⟩

/-- The stored per-bounty state as `knowledge/learn.py` reads it from the
`("bounties", id)` namespace: the fields it accesses (`repo`, `repo_id`,
`approach_summary`), the two fields it writes (`outcome`, `phase`), each
optional because the Python code uses `dict.get` with defaults. -/
structure Bounty where
  repo : Option String := none
  repoId : Option String := none
  approachSummary : Option String := none
  outcome : Option String := none
  phase : Option Phase := none
deriving DecidableEq, Repr

/-- A `rejections` Learning record as written by
`record_submission_outcome`. -/
structure Learning where
  bountyId : String
  repo : String
  whatHappened : String
  lesson : String
  embeddingText : String
  createdAt : String
deriving DecidableEq, Repr

/-- A `successes` Learning record as written by
`record_submission_outcome`. -/
structure SuccessRec where
  bountyId : String
  repo : String
  whatWorked : String
  embeddingText : String
  createdAt : String
deriving DecidableEq, Repr

/-- The slice of the LangGraph Store the knowledge modules touch: the
`("repos", key)/"profile"` records, the `("bounties", id)/"state"`
records, and the two learning namespaces (`uuid`-keyed; modelled as a list
of key-value pairs, appended under fresh keys). -/
structure Store where
  repos : String → Option RepoProfile
  bounties : String → Option Bounty
  rejections : List (String × Learning)
  successes : List (String × SuccessRec)

/-- `store.aput(("repos", k), "profile", p)`. -/
def putRepo (st : Store) (k : String) (p : RepoProfile) : Store :=
  { st with repos := fun x => if x = k then some p else st.repos x }

/-- Python truthiness of the optional `reviewer_feedback` string:
`None` and `""` are falsy. -/
def pyTruthy : Option String → Bool
  | none => false
  | some t => t ≠ ""

/-- The value sent back by the executor when asked to compress the
feedback into a lesson, and the non-object executor response for
`sync_repo_knowledge`: either a JSON object (the knowledge payload:
`gotchas` plus the untouched remaining fields) or a non-dict value. -/
inductive BobVal where
  | obj (gotchas : List String) (extra : List (String × String))
  | nonDict (raw : String)
deriving DecidableEq, Repr

/-- The coercion in `sync_repo_knowledge`:
`if not isinstance(response, dict): response = {}`. -/
def coerceObj : BobVal → List String × List (String × String)
  | .obj g e => (g, e)
  | .nonDict _ => ([], [])

/-- `sync_repo_knowledge` (`knowledge/repo_sync.py`): derive the key from
the URL, call the executor (`o` is the HTTP outcome; on failure `ask_bob`
hands back an empty response dict), take `result.get("response", {})`,
coerce a non-dict to `{}`, and store `{**response, "url": repo_url,
"last_synced": now}` under `("repos", key)/"profile"`; return the key. -/
def syncRepoKnowledge (repoUrl : String) (o : ExecOutcome BobVal)
    (now : String) (st : Store) : Store × String :=
  let repoId := deriveKey repoUrl
  let response := getResp (.obj [] []) (askBob (.obj [] []) o)
  let ge := coerceObj response
  (putRepo st repoId
    { gotchas := ge.1, extra := ge.2, url := repoUrl, lastSynced := some now },
   repoId)

/-- `record_submission_outcome` (`knowledge/learn.py`).  `lessonResp`
models `result.get("response", reviewer_feedback)` for the
lesson-compression executor call: `some l` when the reply carries a
`response` string, `none` when the key is absent (default to the raw
feedback).  `freshKey` models the fresh `uuid` learning key, `now` the
`datetime.now().isoformat()` stamp.  An unknown bounty id returns the
store unchanged (the Python function returns silently). -/
def recordSubmissionOutcome (bountyId outcome : String)
    (feedback : Option String) (lessonResp : Option String)
    (freshKey now : String) (st : Store) : Store :=
  match st.bounties bountyId with
  | none => st
  | some bounty =>
    let repo := bounty.repo.getD "unknown"
    let repoId := bounty.repoId.getD ""
    let st1 :=
      if outcome = "rejected" ∧ pyTruthy feedback then
        let fb := feedback.getD ""
        let lesson := lessonResp.getD fb
        let st2 :=
          { st with
            rejections := st.rejections ++
              [(freshKey,
                { bountyId := bountyId, repo := repo, whatHappened := fb,
                  lesson := lesson,
                  embeddingText := repo ++ " rejection " ++ lesson,
                  createdAt := now })] }
        if repoId ≠ "" then
          match st2.repos repoId with
          | some p =>
            if lesson ∈ p.gotchas then st2
            else putRepo st2 repoId { p with gotchas := p.gotchas ++ [lesson] }
          | none => st2
        else st2
      else if outcome = "merged" then
        { st with
          successes := st.successes ++
            [(freshKey,
              { bountyId := bountyId, repo := repo,
                whatWorked := bounty.approachSummary.getD "",
                embeddingText := repo ++ " success merged",
                createdAt := now })] }
      else st
    { st1 with
      bounties := fun x =>
        if x = bountyId then
          some { bounty with outcome := some outcome, phase := some .F }
        else st1.bounties x }

/-- Result of the `record_outcome` API endpoint (`api.py`): the JSON body
of a 200 reply, or an HTTPException with a status code. -/
inductive ApiResult where
  | ok (status bountyId outcome : String)
  | httpError (code : Nat) (detail : String)
deriving DecidableEq, Repr

/-- `record_outcome` (`api.py`): 503 when the store is the unconfigured
dict fallback; otherwise it calls `record_submission_outcome` (which never
raises in this model, matching the source where every stored-state access
is wrapped) and answers
`{"status": "recorded", "bounty_id": id, "outcome": outcome}`. -/
def apiRecordOutcome (bountyId outcome : String)
    (feedback lessonResp : Option String) (freshKey now : String)
    (storeConfigured : Bool) (st : Store) : Store × ApiResult :=
  if storeConfigured = false then (st, .httpError 503 "Store not configured")
  else
    (recordSubmissionOutcome bountyId outcome feedback lessonResp freshKey now st,
     .ok "recorded" bountyId outcome)

/-- A store with no records at all. -/
def emptyStore : Store :=
  { repos := fun _ => none, bounties := fun _ => none,
    rejections := [], successes := [] }

/-- Numeric value of a decimal digit character. -/
def digitVal (c : Char) : Option Nat :=
  if c.isDigit then some (c.toNat - 48) else none

/-- Parse exactly `n` decimal digits, accumulating their value. -/
def parseDigitsAux : Nat → Nat → List Char → Option (Nat × List Char)
  | 0, acc, cs => some (acc, cs)
  | _ + 1, _, [] => none
  | n + 1, acc, c :: cs =>
    match digitVal c with
    | some d => parseDigitsAux n (acc * 10 + d) cs
    | none => none

/-- Consume one expected character. -/
def expectChar (c : Char) : List Char → Option (List Char)
  | x :: xs => if x = c then some xs else none
  | [] => none

/-- Gregorian leap year. -/
def isLeap (y : Nat) : Bool :=
  y % 4 == 0 && (y % 100 != 0 || y % 400 == 0)

/-- Days in a month of the proleptic Gregorian calendar. -/
def daysInMonth (y m : Nat) : Nat :=
  if m = 2 then (if isLeap y then 29 else 28)
  else if m = 4 ∨ m = 6 ∨ m = 9 ∨ m = 11 then 30
  else 31

/-- Days in year `y` that precede month `m`. -/
def daysBeforeMonth (y : Nat) : Nat → Nat
  | 0 => 0
  | m + 1 => if m = 0 then 0 else daysBeforeMonth y m + daysInMonth y m

/-- Ordinal day number (day 1 of year 1 is 1), as in `datetime.toordinal`. -/
def toEpochDays (y m d : Nat) : Nat :=
  let p := y - 1
  365 * p + p / 4 - p / 100 + p / 400 + daysBeforeMonth y m + d

/-- Seconds corresponding to a date-time, counted from the calendar origin. -/
def toEpochSecs (y m d h mi s : Nat) : Int :=
  (toEpochDays y m d : Int) * 86400 + h * 3600 + mi * 60 + s

/-- Skip a fractional-seconds part (`.fff` or `.ffffff`), the two widths
`datetime.fromisoformat` accepts; its value does not affect the
day-granularity staleness comparison. -/
def skipFrac : List Char → Option (List Char)
  | '.' :: rest =>
    let sp := rest.span Char.isDigit
    if sp.1.length = 3 ∨ sp.1.length = 6 then some sp.2 else none
  | cs => some cs

/-- Parse a trailing UTC offset (`+HH:MM` or `-HH:MM`), or nothing for a
naive timestamp (offset 0 in this model: the source compares against
`datetime.now(synced_at.tzinfo)`, so naive and aware values are each
compared within their own consistent frame). -/
def parseTz : List Char → Option Int := fun cs =>
  match cs with
  | [] => some 0
  | sign :: rest =>
    if sign = '+' ∨ sign = '-' then do
      let (hh, cs1) ← parseDigitsAux 2 0 rest
      let cs2 ← expectChar ':' cs1
      let (mm, cs3) ← parseDigitsAux 2 0 cs2
      guard (cs3 = [] ∧ hh ≤ 23 ∧ mm ≤ 59)
      let off : Int := hh * 3600 + mm * 60
      some (if sign = '+' then off else -off)
    else none

/-- Model of `datetime.fromisoformat` on the grammar produced by
`datetime.isoformat()`: `YYYY-MM-DD`, optionally followed by `T` or a
space and `HH:MM:SS`, optional fractional seconds, optional `±HH:MM`
offset; field ranges validated; result in seconds, offset normalised
away.  Anything else is unparseable (`ValueError` in the source). -/
def parseIsoTimestamp (cs : List Char) : Option Int := do
  let (y, cs1) ← parseDigitsAux 4 0 cs
  let cs2 ← expectChar '-' cs1
  let (m, cs3) ← parseDigitsAux 2 0 cs2
  let cs4 ← expectChar '-' cs3
  let (d, cs5) ← parseDigitsAux 2 0 cs4
  guard (1 ≤ y ∧ 1 ≤ m ∧ m ≤ 12 ∧ 1 ≤ d ∧ d ≤ daysInMonth y m)
  match cs5 with
  | [] => some (toEpochSecs y m d 0 0 0)
  | sep :: cs6 => do
    guard (sep = 'T' ∨ sep = ' ')
    let (h, cs7) ← parseDigitsAux 2 0 cs6
    let cs8 ← expectChar ':' cs7
    let (mi, cs9) ← parseDigitsAux 2 0 cs8
    let cs10 ← expectChar ':' cs9
    let (sec, cs11) ← parseDigitsAux 2 0 cs10
    guard (h ≤ 23 ∧ mi ≤ 59 ∧ sec ≤ 59)
    let cs12 ← skipFrac cs11
    let off ← parseTz cs12
    some (toEpochSecs y m d h mi sec - off)

/-- The instant a stored `last_synced` string denotes, after the source's
`last_synced.replace("Z", "+00:00")` preprocessing; `none` when
unparseable. -/
def parsedInstant (s : String) : Option Int :=
  parseIsoTimestamp (replaceAll ['Z'] ("+00:00".data) s.data)

/-- `is_stale` (`knowledge/repo_sync.py`): `True` for a falsy value
(`None` or `""`), `True` when `fromisoformat` raises, otherwise
`now - synced_at > timedelta(days=days)` (strict). -/
def pyIsStale (now : Int) (lastSynced : Option String) (days : Int) : Bool :=
  match lastSynced with
  | none => true
  | some s =>
    if s = "" then true
    else
      match parsedInstant s with
      | none => true
      | some t => decide (now - t > days * 86400)

/-- The staleness condition exactly as the specification words it: the
timestamp is absent, unparseable, or older than the threshold relative to
now. -/
def StaleSpec (now : Int) (lastSynced : Option String) (days : Int) : Prop :=
  match lastSynced with
  | none => True
  | some s =>
    parsedInstant s = none ∨ ∃ t, parsedInstant s = some t ∧ now - t > days * 86400

/-- The character normalisation performed by the first two `replace`
calls of the key derivation (path separator and scheme colon both become
underscores). -/
def sepNorm (c : Char) : Char :=
  if c = '/' then '_' else if c = ':' then '_' else c

/-- A concrete initial workflow state, as `start_bounty_workflow`
(`api.py`) builds it: phase A, not approved, empty payloads. -/
def baseState : BState :=
  { bountyId := "b-1"
    issueUrl := "https://github.com/owner/name/issues/1"
    repo := "owner/name"
    repoId := "owner_name"
    issueDetails := []
    competitionAnalysis := none
    implementationPlan := []
    phase := .A
    humanApproved := some false
    executionResult := []
    sessionId := "bounty-b-1-abc"
    repoProfile := none
    outcome := none }

/-- A state at phase E, reached from `baseState` by running the graph to
completion with an approval in between (the executor being unreachable
throughout, which the nodes tolerate). -/
def cexE : BState :=
  executeViaBob (.fail "connection refused")
    (approveAction
      (createPlan (.fail "connection refused")
        (checkCompetition (.fail "connection refused")
          (analyzeBounty none (.fail "connection refused") baseState))))

theorem replaceAllAux_congr (pat rep : List Char) :
    ∀ (n : Nat) (s : List Char) (f g : Nat),
      s.length ≤ n → s.length ≤ f → s.length ≤ g →
      replaceAllAux pat rep f s = replaceAllAux pat rep g s := by
  intro n
  induction n with
  | zero =>
    intro s f g hn _ _
    have hs : s = [] := List.length_eq_zero.mp (Nat.le_zero.mp hn)
    subst hs
    cases f <;> cases g <;> rfl
  | succ n ih =>
    intro s f g hn hf hg
    cases s with
    | nil => cases f <;> cases g <;> rfl
    | cons c rest =>
      cases f with
      | zero => simp at hf
      | succ f' =>
        cases g with
        | zero => simp at hg
        | succ g' =>
          simp only [List.length_cons] at hn hf hg
          simp only [replaceAllAux]
          by_cases h : hasPfx pat (c :: rest) = true ∧ 0 < pat.length
          · rw [if_pos h, if_pos h]
            congr 1
            apply ih
            · simp only [List.length_drop, List.length_cons]
              omega
            · simp only [List.length_drop, List.length_cons]
              omega
            · simp only [List.length_drop, List.length_cons]
              omega
          · rw [if_neg h, if_neg h]
            congr 1
            apply ih <;> omega

theorem replaceAll_cons_ne (pat rep : List Char) (c : Char) (s : List Char)
    (h : hasPfx pat (c :: s) = false) :
    replaceAll pat rep (c :: s) = c :: replaceAll pat rep s := by
  unfold replaceAll
  simp only [List.length_cons, replaceAllAux]
  rw [if_neg]
  intro hc
  rw [h] at hc
  exact absurd hc.1 (by simp)

theorem hasPfx_append_self (pat s : List Char) : hasPfx pat (pat ++ s) = true := by
  induction pat with
  | nil => rfl
  | cons a as ih => simp [hasPfx, ih]

theorem replaceAll_consume (pat rep s : List Char) (hp : pat ≠ []) :
    replaceAll pat rep (pat ++ s) = rep ++ replaceAll pat rep s := by
  cases pat with
  | nil => exact absurd rfl hp
  | cons a as =>
    unfold replaceAll
    have hlen : ((a :: as) ++ s).length = (as.length + s.length) + 1 := by
      simp [List.length_append]
    rw [hlen]
    have hcons : (a :: as) ++ s = a :: (as ++ s) := rfl
    rw [hcons]
    simp only [replaceAllAux]
    rw [if_pos]
    · congr 1
      have hdrop : (a :: (as ++ s)).drop (a :: as).length = s := by
        have : (a :: (as ++ s)) = (a :: as) ++ s := rfl
        rw [this]
        exact List.drop_left (a :: as) s
      rw [hdrop]
      apply replaceAllAux_congr (a :: as) rep (as.length + s.length) s
      · omega
      · omega
      · omega
    · constructor
      · rw [← hcons]
        exact hasPfx_append_self (a :: as) s
      · simp

theorem replaceAll_single_eq_map (a b : Char) (s : List Char) :
    replaceAll [a] [b] s = s.map (fun c => if c = a then b else c) := by
  induction s with
  | nil => rfl
  | cons c rest ih =>
    by_cases h : c = a
    · subst h
      have hcons : c :: rest = [c] ++ rest := rfl
      rw [hcons, replaceAll_consume [c] [b] rest (by simp), ih]
      simp
    · have hp : hasPfx [a] (c :: rest) = false := by
        have h1 : (a == c) = false := beq_eq_false_iff_ne.mpr (Ne.symm h)
        simp [hasPfx, h1]
      rw [replaceAll_cons_ne _ _ _ _ hp, ih]
      simp [h]

theorem sep_replace_eq_map (s : List Char) :
    replaceAll [':'] ['_'] (replaceAll ['/'] ['_'] s) = s.map sepNorm := by
  rw [replaceAll_single_eq_map, replaceAll_single_eq_map, List.map_map]
  have hfun :
      ((fun c => if c = ':' then '_' else c) ∘ fun c => if c = '/' then '_' else c)
        = sepNorm := by
    funext c
    by_cases h1 : c = '/'
    · subst h1
      rfl
    · by_cases h2 : c = ':'
      · subst h2
        rfl
      · simp [sepNorm, Function.comp, h1, h2]
  rw [hfun]

theorem replaceAll_github_prefix (X : List Char) :
    replaceAll "https___".data [] ("github.com_".data ++ X) =
      "github.com_".data ++ replaceAll "https___".data [] X := by
  have h : "github.com_".data = ['g', 'i', 't', 'h', 'u', 'b', '.', 'c', 'o', 'm', '_'] := rfl
  rw [h]
  simp only [List.cons_append, List.nil_append]
  rw [replaceAll_cons_ne, replaceAll_cons_ne, replaceAll_cons_ne, replaceAll_cons_ne,
      replaceAll_cons_ne, replaceAll_cons_ne, replaceAll_cons_ne, replaceAll_cons_ne,
      replaceAll_cons_ne, replaceAll_cons_ne, replaceAll_cons_ne] <;> rfl

theorem deriveKey_data (s : String) :
    (deriveKey s).data = replaceAll "https___".data [] (s.data.map sepNorm) := by
  unfold deriveKey
  rw [sep_replace_eq_map]

theorem deriveKey_github_url (repo : String) :
    (deriveKey ("https://github.com/" ++ repo)).data
      = "github.com_".data ++ (deriveKey repo).data := by
  rw [deriveKey_data, deriveKey_data, String.data_append]
  have hmap : ("https://github.com/".data ++ repo.data).map sepNorm
      = "https___".data ++ ("github.com_".data ++ repo.data.map sepNorm) := by
    rw [List.map_append]
    have : "https://github.com/".data.map sepNorm
        = "https___".data ++ "github.com_".data := rfl
    rw [this, List.append_assoc]
  rw [hmap, replaceAll_consume _ _ _ (by simp), replaceAll_github_prefix]
  rfl

/-- C1 (amended): when the Executor Client call fails (unreachable,
non-2xx, or timeout), `ask_bob` swallows the `httpx.HTTPError` and hands
back an error dict with an empty `response`; every phase node then
completes normally, stores the empty payload, and still writes its phase
(analyze → B, create_plan → C, execute → E; check_competition leaves the
phase untouched).  No typed `ExecutionFailure` propagates out of any
node. -/
theorem c1_failed_call_yields_empty_payload_and_advanced_phase :
    ∀ (s : BState) (prof : Option RepoProfile) (e : String),
      (analyzeBounty prof (.fail e) s).issueDetails = []
      ∧ (analyzeBounty prof (.fail e) s).phase = .B
      ∧ (checkCompetition (.fail e) s).competitionAnalysis
          = some (.obj none none [])
      ∧ (checkCompetition (.fail e) s).phase = s.phase
      ∧ (createPlan (.fail e) s).implementationPlan = []
      ∧ (createPlan (.fail e) s).phase = .C
      ∧ (executeViaBob (.fail e) s).executionResult = []
      ∧ (executeViaBob (.fail e) s).phase = .E := by
  intro s prof e
  exact ⟨rfl, rfl, rfl, rfl, rfl, rfl, rfl, rfl⟩

/-- C1 counterexample: at a concrete phase-A instance with the Executor
Client unreachable, `analyze_bounty` returns a state whose `phase` HAS
advanced (A to B) and whose result payload is empty — exactly what the
claim says cannot happen. -/
theorem c1_counterexample_analyze_advances_on_failure :
    (analyzeBounty none (.fail "connection refused") baseState).phase = Phase.B
    ∧ (analyzeBounty none (.fail "connection refused") baseState).issueDetails = []
    ∧ phaseIdx baseState.phase
        < phaseIdx (analyzeBounty none (.fail "connection refused") baseState).phase := by
  exact ⟨rfl, rfl, by decide⟩

/-- C2 (amended): every workflow step either leaves the phase at least
where it was, or is the external approve action, which always forces the
phase to exactly D — and can therefore move an instance already at E or F
backwards. -/
theorem c2_step_phase_monotone_except_approve :
    ∀ s t : BState, Step s t →
      t.phase = Phase.D ∨ phaseIdx s.phase ≤ phaseIdx t.phase := by
  intro s t h
  cases h with
  | analyze prof o hA =>
    right
    rw [hA]
    exact (by decide : phaseIdx Phase.A ≤ phaseIdx Phase.B)
  | checkComp o hB =>
    right
    exact Nat.le_refl _
  | plan o hB hc =>
    right
    rw [hB]
    exact (by decide : phaseIdx Phase.B ≤ phaseIdx Phase.C)
  | approval hC =>
    right
    exact Nat.le_refl _
  | execute o hCD ha =>
    right
    rcases hCD with hC | hD
    · rw [hC]
      exact (by decide : phaseIdx Phase.C ≤ phaseIdx Phase.E)
    · rw [hD]
      exact (by decide : phaseIdx Phase.D ≤ phaseIdx Phase.E)
  | approve =>
    left
    rfl
  | reject =>
    right
    have hF : (rejectAction s).phase = Phase.F := rfl
    rw [hF]
    cases s.phase <;> decide

/-- C2 witness: the amended statement applied to the concrete first step
of a run. -/
theorem c2_step_phase_monotone_except_approve_witness :
    (analyzeBounty none (ExecOutcome.fail "connection refused") baseState).phase
        = Phase.D
    ∨ phaseIdx baseState.phase
        ≤ phaseIdx (analyzeBounty none (ExecOutcome.fail "connection refused") baseState).phase :=
  c2_step_phase_monotone_except_approve baseState _
    (Step.analyze baseState none (ExecOutcome.fail "connection refused") rfl)

/-- C2 counterexample: a reachable instance at phase E on which the
external approve action is a legal step (the endpoint checks nothing)
whose result is phase D — a strict regression, refuting "no step ever
maps a state with a later phase to a state with an earlier phase". -/
theorem c2_counterexample_approve_regresses_from_E :
    Reachable baseState cexE
    ∧ Step cexE (approveAction cexE)
    ∧ phaseIdx (approveAction cexE).phase < phaseIdx cexE.phase := by
  refine ⟨?_, Step.approve cexE, by decide⟩
  have h1 : Step baseState
      (analyzeBounty none (.fail "connection refused") baseState) :=
    Step.analyze baseState none (.fail "connection refused") rfl
  have h2 : Step (analyzeBounty none (.fail "connection refused") baseState)
      (checkCompetition (.fail "connection refused")
        (analyzeBounty none (.fail "connection refused") baseState)) :=
    Step.checkComp _ (.fail "connection refused") rfl
  have h3 : Step (checkCompetition (.fail "connection refused")
        (analyzeBounty none (.fail "connection refused") baseState))
      (createPlan (.fail "connection refused")
        (checkCompetition (.fail "connection refused")
          (analyzeBounty none (.fail "connection refused") baseState))) :=
    Step.plan _ (.fail "connection refused") rfl (by decide)
  have h4 : Step (createPlan (.fail "connection refused")
        (checkCompetition (.fail "connection refused")
          (analyzeBounty none (.fail "connection refused") baseState)))
      (approveAction
        (createPlan (.fail "connection refused")
          (checkCompetition (.fail "connection refused")
            (analyzeBounty none (.fail "connection refused") baseState)))) :=
    Step.approve _
  have h5 : Step (approveAction
        (createPlan (.fail "connection refused")
          (checkCompetition (.fail "connection refused")
            (analyzeBounty none (.fail "connection refused") baseState)))) cexE :=
    Step.execute _ (.fail "connection refused") (Or.inr rfl) rfl
  exact Relation.ReflTransGen.head h1
    (Relation.ReflTransGen.head h2
      (Relation.ReflTransGen.head h3
        (Relation.ReflTransGen.head h4
          (Relation.ReflTransGen.head h5 Relation.ReflTransGen.refl))))

/-- C3: `should_proceed` answers "skip" exactly when the stored
competition analysis is a well-formed object whose competing count is
positive or whose recommendation is "skip"; an absent or malformed
(non-dict) analysis falls back to "continue". -/
theorem c3_should_proceed_characterisation :
    ∀ s : BState,
      (shouldProceed s = "skip" ↔
        (∃ cp rec ex, s.competitionAnalysis = some (.obj cp rec ex)
          ∧ (0 < cp.getD 0 ∨ rec = some "skip")))
      ∧ (s.competitionAnalysis = none → shouldProceed s = "continue")
      ∧ (∀ raw, s.competitionAnalysis = some (.nonDict raw) →
          shouldProceed s = "continue") := by
  intro s
  refine ⟨?_, ?_, ?_⟩
  · cases h : s.competitionAnalysis with
    | none => simp [shouldProceed, h]
    | some ca =>
      cases ca with
      | obj cp rec ex =>
        simp only [shouldProceed, h, Option.getD_some]
        constructor
        · intro hskip
          by_cases hcp : cp.getD 0 = 0
          · by_cases hrec : rec.getD "proceed" = "skip"
            · refine ⟨cp, rec, ex, rfl, Or.inr ?_⟩
              cases rec with
              | none => simp at hrec
              | some r => simpa using hrec
            · simp [hcp, hrec] at hskip
          · exact ⟨cp, rec, ex, rfl, Or.inl (Nat.pos_of_ne_zero hcp)⟩
        · rintro ⟨cp', rec', ex', heq, hor⟩
          injection heq with heq'
          injection heq' with h1 h2 h3
          subst h1
          subst h2
          subst h3
          rcases hor with hpos | hrec
          · have : ¬ cp.getD 0 = 0 := Nat.pos_iff_ne_zero.mp hpos
            simp [this]
          · subst hrec
            simp
      | nonDict raw => simp [shouldProceed, h]
  · intro h
    simp [shouldProceed, h]
  · intro raw h
    simp [shouldProceed, h]

/-- C3 witness: the characterisation applied to a concrete state carrying
a competing count of 2, where `should_proceed` says "skip". -/
theorem c3_should_proceed_characterisation_witness :
    shouldProceed { baseState with
        competitionAnalysis := some (.obj (some 2) (some "proceed") []) } = "skip" :=
  ((c3_should_proceed_characterisation
      { baseState with
        competitionAnalysis := some (.obj (some 2) (some "proceed") []) }).1).mpr
    ⟨some 2, some "proceed", [], rfl, Or.inl (by decide)⟩

/-- C7: `is_approved` depends only on the `human_approved` flag; it is
"execute" exactly when the flag is present and true, and "rejected" when
the flag is false or absent. -/
theorem c7_is_approved_pure_function_of_flag :
    ∀ s : BState,
      (isApproved s = "execute" ↔ s.humanApproved = some true)
      ∧ ((s.humanApproved = some false ∨ s.humanApproved = none) →
          isApproved s = "rejected")
      ∧ (∀ t : BState, s.humanApproved = t.humanApproved →
          isApproved s = isApproved t) := by
  intro s
  refine ⟨?_, ?_, ?_⟩
  · unfold isApproved
    by_cases h : s.humanApproved = some true <;> simp [h]
  · intro h
    unfold isApproved
    rcases h with h | h <;> simp [h]
  · intro t h
    unfold isApproved
    rw [h]

/-- C7 witness: the statement applied at a concrete rejected state. -/
theorem c7_is_approved_pure_function_of_flag_witness :
    isApproved baseState = "rejected" :=
  (c7_is_approved_pure_function_of_flag baseState).2.1 (Or.inl rfl)

/-- C4: for a stored instance, recording outcome "merged" sets the stored
state's outcome to "merged" and its phase to F, appends exactly one new
`successes` Learning and no `rejections` Learning; outcomes "stale" and
"abandoned" create no Learning at all; and for every outcome string the
stored WorkflowInstance ends with that outcome and phase F. -/
theorem c4_record_outcome_merged_stale_abandoned :
    ∀ (st : Store) (id : String) (b : Bounty) (fb lessonResp : Option String)
      (k now : String),
      st.bounties id = some b →
      ((recordSubmissionOutcome id "merged" fb lessonResp k now st).bounties id
          = some { b with outcome := some "merged", phase := some Phase.F }
        ∧ (recordSubmissionOutcome id "merged" fb lessonResp k now st).successes.length
            = st.successes.length + 1
        ∧ (recordSubmissionOutcome id "merged" fb lessonResp k now st).rejections
            = st.rejections)
      ∧ (∀ oc, (oc = "stale" ∨ oc = "abandoned") →
          (recordSubmissionOutcome id oc fb lessonResp k now st).successes
              = st.successes
          ∧ (recordSubmissionOutcome id oc fb lessonResp k now st).rejections
              = st.rejections)
      ∧ (∀ oc, (recordSubmissionOutcome id oc fb lessonResp k now st).bounties id
          = some { b with outcome := some oc, phase := some Phase.F }) := by
  intro st id b fb lessonResp k now hb
  refine ⟨⟨?_, ?_, ?_⟩, ?_, ?_⟩
  · simp [recordSubmissionOutcome, hb]
  · simp [recordSubmissionOutcome, hb]
  · simp [recordSubmissionOutcome, hb]
  · intro oc hoc
    rcases hoc with h | h <;> subst h <;>
      simp [recordSubmissionOutcome, hb]
  · intro oc
    simp [recordSubmissionOutcome, hb]

/-- C4 witness: the statement applied to a concrete one-bounty store. -/
theorem c4_record_outcome_merged_stale_abandoned_witness :
    (recordSubmissionOutcome "b-1" "merged" none none "k0" "t0"
        { emptyStore with
          bounties := fun x => if x = "b-1" then
            some { repo := some "owner/name", repoId := some "owner_name" }
          else none }).successes.length
      = ({ emptyStore with
          bounties := fun x => if x = "b-1" then
            some { repo := some "owner/name", repoId := some "owner_name" }
          else none } : Store).successes.length + 1 :=
  ((c4_record_outcome_merged_stale_abandoned
      { emptyStore with
        bounties := fun x => if x = "b-1" then
          some { repo := some "owner/name", repoId := some "owner_name" }
        else none }
      "b-1" { repo := some "owner/name", repoId := some "owner_name" }
      none none "k0" "t0" (by simp)).1).2.1

/-- C8: appending a rejection lesson to the target's gotcha list is
idempotent under exact string equality — a lesson already present leaves
the profile untouched, and recording the same rejection twice leaves
exactly one copy of the lesson in the gotcha list. -/
theorem c8_gotcha_append_idempotent :
    ∀ (st : Store) (id : String) (b : Bounty) (rid : String) (p : RepoProfile)
      (f lesson : String) (k1 k2 t1 t2 : String),
      st.bounties id = some b →
      b.repoId = some rid →
      rid ≠ "" →
      st.repos rid = some p →
      f ≠ "" →
      (lesson ∈ p.gotchas →
        (recordSubmissionOutcome id "rejected" (some f) (some lesson) k1 t1 st).repos rid
          = some p)
      ∧ (lesson ∉ p.gotchas →
          ∃ p2 : RepoProfile,
            (recordSubmissionOutcome id "rejected" (some f) (some lesson) k2 t2
              (recordSubmissionOutcome id "rejected" (some f) (some lesson) k1 t1 st)).repos rid
              = some p2
            ∧ p2.gotchas = p.gotchas ++ [lesson]
            ∧ p2.gotchas.count lesson = 1) := by
  intro st id b rid p f lesson k1 k2 t1 t2 hb hrid hrne hp hf
  constructor
  · intro hmem
    simp [recordSubmissionOutcome, hb, hrid, hrne, hp, pyTruthy, hf, hmem]
  · intro hmem
    refine ⟨{ p with gotchas := p.gotchas ++ [lesson] }, ?_, rfl, ?_⟩
    · have h1 : (recordSubmissionOutcome id "rejected" (some f) (some lesson) k1 t1 st).repos rid
          = some { p with gotchas := p.gotchas ++ [lesson] } := by
        simp [recordSubmissionOutcome, hb, hrid, hrne, hp, pyTruthy, hf, hmem, putRepo]
      have h2 : (recordSubmissionOutcome id "rejected" (some f) (some lesson) k1 t1 st).bounties id
          = some { b with outcome := some "rejected", phase := some Phase.F } := by
        simp [recordSubmissionOutcome, hb, hrid, hrne, hp, pyTruthy, hf, hmem, putRepo]
      have hmem2 : lesson ∈ ({ p with gotchas := p.gotchas ++ [lesson] } : RepoProfile).gotchas := by
        simp
      generalize hgen :
        recordSubmissionOutcome id "rejected" (some f) (some lesson) k1 t1 st = st1 at h1 h2 ⊢
      simp [recordSubmissionOutcome, h1, h2, hrid, hrne, pyTruthy, hf, hmem2]
    · simp [List.count_append, List.count_eq_zero.mpr hmem]

/-- C8 witness: the statement applied to a concrete store whose profile
has an empty gotcha list; recording the same rejection twice leaves one
copy. -/
theorem c8_gotcha_append_idempotent_witness :
    ∃ p2 : RepoProfile,
      (recordSubmissionOutcome "b-1" "rejected" (some "style issues")
          (some "follow the lint rules") "k2" "t2"
          (recordSubmissionOutcome "b-1" "rejected" (some "style issues")
            (some "follow the lint rules") "k1" "t1"
            { emptyStore with
              bounties := fun x => if x = "b-1" then
                some { repo := some "owner/name", repoId := some "owner_name" }
              else none
              repos := fun x => if x = "owner_name" then
                some { gotchas := [], url := "https://github.com/owner/name" }
              else none })).repos "owner_name"
        = some p2
      ∧ p2.gotchas = ([] : List String) ++ ["follow the lint rules"]
      ∧ p2.gotchas.count "follow the lint rules" = 1 :=
  (c8_gotcha_append_idempotent
      { emptyStore with
        bounties := fun x => if x = "b-1" then
          some { repo := some "owner/name", repoId := some "owner_name" }
        else none
        repos := fun x => if x = "owner_name" then
          some { gotchas := [], url := "https://github.com/owner/name" }
        else none }
      "b-1" { repo := some "owner/name", repoId := some "owner_name" }
      "owner_name" { gotchas := [], url := "https://github.com/owner/name" }
      "style issues" "follow the lint rules" "k1" "k2" "t1" "t2"
      (by simp) rfl (by decide) (by simp) (by decide)).2
    (by simp)

/-- C9 (amended): invoking the Learning Recorder on an unknown instance
key is a silent success — `record_submission_outcome` returns with the
store unchanged, and the API endpoint answers 200 with status
"recorded"; no not-found condition is surfaced. -/
theorem c9_unknown_key_silent_success :
    ∀ (st : Store) (id oc : String) (fb lessonResp : Option String) (k now : String),
      st.bounties id = none →
      apiRecordOutcome id oc fb lessonResp k now true st
        = (st, ApiResult.ok "recorded" id oc) := by
  intro st id oc fb lessonResp k now h
  simp [apiRecordOutcome, recordSubmissionOutcome, h]

/-- C9 witness: the amended statement applied to the empty store. -/
theorem c9_unknown_key_silent_success_witness :
    apiRecordOutcome "ghost" "merged" none none "k0" "t0" true emptyStore
      = (emptyStore, ApiResult.ok "recorded" "ghost" "merged") :=
  c9_unknown_key_silent_success emptyStore "ghost" "merged" none none "k0" "t0" rfl

/-- C9 counterexample: on the concrete unknown key "ghost" the endpoint
replies 200 "recorded" and nothing is stored — a silent success rather
than a distinct not-found condition, refuting the claim as stated. -/
theorem c9_counterexample_not_found_is_silent :
    apiRecordOutcome "ghost" "rejected" (some "feedback") none "k0" "t0" true emptyStore
      = (emptyStore, ApiResult.ok "recorded" "ghost" "rejected") := rfl

/-- C5: `is_stale` is true exactly when the timestamp is absent,
unparseable, or strictly older than the threshold relative to now; in
particular it is true on `None`, false on the current instant, true on an
instant eight days old (threshold 7), and true on a malformed string.
The reference instant is 2026-10-12T00:00:00+00:00. -/
theorem c5_is_stale_characterisation :
    (∀ (now : Int) (ls : Option String) (days : Int),
        pyIsStale now ls days = true ↔ StaleSpec now ls days)
    ∧ pyIsStale (toEpochSecs 2026 10 12 0 0 0) none 7 = true
    ∧ pyIsStale (toEpochSecs 2026 10 12 0 0 0)
        (some "2026-10-12T00:00:00+00:00") 7 = false
    ∧ pyIsStale (toEpochSecs 2026 10 12 0 0 0)
        (some "2026-10-04T00:00:00+00:00") 7 = true
    ∧ pyIsStale (toEpochSecs 2026 10 12 0 0 0)
        (some "2026-10-04T00:00:00Z") 7 = true
    ∧ pyIsStale (toEpochSecs 2026 10 12 0 0 0) (some "not-a-date") 7 = true := by
  refine ⟨?_, by decide, by decide, by decide, by decide, by decide⟩
  intro now ls days
  cases ls with
  | none => simp [pyIsStale, StaleSpec]
  | some s =>
    by_cases hs : s = ""
    · subst hs
      have hnone : parsedInstant "" = none := rfl
      simp [pyIsStale, StaleSpec, hnone]
    · cases hp : parsedInstant s with
      | none => simp [pyIsStale, StaleSpec, hs, hp]
      | some t => simp [pyIsStale, StaleSpec, hs, hp]

/-- C6: `sync_repo_knowledge` returns the key derived from the reference
by the separator/scheme normalisation, stores under that key a profile
whose `last_synced` is the fresh stamp and whose `url` is the reference,
and coerces a non-object executor response to the empty object — for
every response shape, without any failure path. -/
theorem c6_sync_fresh_stamp_and_coercion :
    ∀ (url : String) (o : ExecOutcome BobVal) (now : String) (st : Store),
      (syncRepoKnowledge url o now st).2 = deriveKey url
      ∧ (∃ p : RepoProfile,
          (syncRepoKnowledge url o now st).1.repos (deriveKey url) = some p
          ∧ p.lastSynced = some now ∧ p.url = url)
      ∧ (∀ raw r, o = .ok { response := some (.nonDict raw), error := r } →
          (syncRepoKnowledge url o now st).1.repos (deriveKey url)
            = some { gotchas := [], extra := [], url := url, lastSynced := some now })
      ∧ (o = .fail "timeout" →
          (syncRepoKnowledge url o now st).1.repos (deriveKey url)
            = some { gotchas := [], extra := [], url := url, lastSynced := some now })
      ∧ deriveKey "https://github.com/acme/widget" = "github.com_acme_widget" := by
  intro url o now st
  refine ⟨rfl, ?_, ?_, ?_, by decide⟩
  · refine ⟨{ gotchas := (coerceObj (getResp (BobVal.obj [] []) (askBob (BobVal.obj [] []) o))).1,
              extra := (coerceObj (getResp (BobVal.obj [] []) (askBob (BobVal.obj [] []) o))).2,
              url := url, lastSynced := some now }, ?_, rfl, rfl⟩
    simp [syncRepoKnowledge, putRepo]
  · intro raw r ho
    subst ho
    simp [syncRepoKnowledge, putRepo, askBob, getResp, coerceObj]
  · intro ho
    subst ho
    simp [syncRepoKnowledge, putRepo, askBob, getResp, coerceObj]

/-- C6 witness: the statement applied at a concrete URL with a concrete
non-object response. -/
theorem c6_sync_fresh_stamp_and_coercion_witness :
    (syncRepoKnowledge "https://github.com/acme/widget"
        (.ok { response := some (.nonDict "oops"), error := none })
        "2026-10-12T00:00:00" emptyStore).1.repos
        (deriveKey "https://github.com/acme/widget")
      = some { gotchas := [], extra := [], url := "https://github.com/acme/widget",
               lastSynced := some "2026-10-12T00:00:00" } :=
  ((c6_sync_fresh_stamp_and_coercion "https://github.com/acme/widget"
      (.ok { response := some (.nonDict "oops"), error := none })
      "2026-10-12T00:00:00" emptyStore).2.2.1) "oops" none rfl

/-- C10: the key under which the workflow start derives `repo_id` from
the bare "owner/name" string always differs from the key
`sync_repo_knowledge` derives from the URL
"https://github.com/owner/name" (the latter is the former prefixed by
"github.com_"), so the profile freshly written by a sync triggered inside
`analyze_bounty` is invisible to the re-read performed under the
start-derived key: the store content at that key is exactly what it was
before the sync. -/
theorem c10_start_key_and_sync_key_mismatch :
    ∀ (repo : String) (o : ExecOutcome BobVal) (now : String) (st : Store),
      (deriveKey ("https://github.com/" ++ repo)).data
          = "github.com_".data ++ (deriveKey repo).data
      ∧ deriveKey ("https://github.com/" ++ repo) ≠ deriveKey repo
      ∧ (syncRepoKnowledge ("https://github.com/" ++ repo) o now st).1.repos
            (deriveKey repo)
          = st.repos (deriveKey repo)
      ∧ deriveKey "owner/name" = "owner_name"
      ∧ deriveKey "https://github.com/owner/name" = "github.com_owner_name" := by
  intro repo o now st
  have hdata := deriveKey_github_url repo
  have hne : deriveKey ("https://github.com/" ++ repo) ≠ deriveKey repo := by
    intro h
    have hd := congrArg String.data h
    rw [hdata] at hd
    have hlen := congrArg List.length hd
    rw [List.length_append] at hlen
    have h11 : "github.com_".data.length = 11 := rfl
    omega
  refine ⟨hdata, hne, ?_, by decide, by decide⟩
  simp only [syncRepoKnowledge, putRepo]
  rw [if_neg]
  intro h
  exact hne h.symm

/-- C10 witness: the statement applied at the concrete repo string
"owner/name" with an empty store. -/
theorem c10_start_key_and_sync_key_mismatch_witness :
    deriveKey ("https://github.com/" ++ "owner/name") ≠ deriveKey "owner/name" :=
  (c10_start_key_and_sync_key_mismatch "owner/name"
      (.fail "down") "2026-10-12T00:00:00" emptyStore).2.1

end BountyOrch
